import Mathlib

/-!
# Verification model of `convert.go`

A shallow embedding of the single-endpoint OGA → MP3 conversion service:
`getEnvOr`, `handleConvert` and `cleanup`, together with the parts of the Go
standard library they call (`os`, `os/exec`, `io`, `net/http`, `path/filepath`,
`fmt`).  The handler is written in explicit state-passing style over a
filesystem and a chronological trace of the operations it performs.  Everything
the surroundings decide (the clock, injected I/O failures, what the external
transcoder does) is a field of `Env`.

Not modelled: `log.Printf` lines and the deferred `Close` calls, which change
neither the filesystem nor the response.
-/

namespace Convert

/-! ## Data model -/

/-- Raw bytes; each element stands for one octet. -/
abbrev Bytes := List Nat

/-- A filesystem entry: a directory or a regular file with its contents. -/
inductive Node where
  | dir
  | file (data : Bytes)
  deriving DecidableEq

/-- The filesystem namespace: existing paths and what they hold. -/
abbrev FS := List (String × Node)

/-- The entry at path `p`, if the path exists. -/
def FS.find (fs : FS) (p : String) : Option Node :=
  match fs with
  | [] => none
  | (q, n) :: rest => if q = p then some n else FS.find rest p

/-- The namespace without path `p`. -/
def FS.erase (fs : FS) (p : String) : FS :=
  match fs with
  | [] => []
  | (q, n) :: rest => if q = p then FS.erase rest p else (q, n) :: FS.erase rest p

/-- The namespace with path `p` holding node `n` (replacing what was there). -/
def FS.put (fs : FS) (p : String) (n : Node) : FS :=
  (p, n) :: FS.erase fs p

/-- Whether path `p` exists. -/
def FS.has (fs : FS) (p : String) : Bool :=
  (FS.find fs p).isSome

/-- The operations of the handler that are observable from outside, in the
order of the Go calls that perform them. -/
inductive Op where
  | readBody
  | stat (path : String)
  | mkdir (path : String)
  | writeFile (path : String) (data : Bytes)
  | exec (name : String) (args : List String)
  | openFile (path : String)
  | fileStat (path : String)
  | copy (path : String)
  | remove (path : String)
  deriving DecidableEq

/-- The state the handler threads through: the filesystem and the trace of
operations performed so far (oldest first). -/
structure Sys where
  fs : FS
  trace : List Op
  deriving DecidableEq

/-- How a failing `os.WriteFile` ends: its error text and what it left at the
path (`none`: the path was not touched; `some b`: a file holding `b`). -/
structure WriteFault where
  err : String
  leftover : Option Bytes
  deriving DecidableEq

/-- What one run of an external command did: the error of `cmd.Run()` (`none`
for exit status 0), the text captured from its standard error, and the
filesystem it left. -/
structure RunResult where
  err : Option String
  stderr : String
  fs : FS
  deriving DecidableEq

/-- Everything the surroundings decide for one request. -/
structure Env where
  /-- Value of `time.Now().Unix()`. -/
  now : Int
  /-- Whether `os.Stat(p)` fails with an error for which `os.IsNotExist` holds. -/
  statIsNotExist : String → FS → Bool
  /-- Whether `os.Mkdir(p, _)` fails for a reason other than `p` existing. -/
  mkdirFails : String → FS → Bool
  /-- Failure injected into `os.WriteFile(p, data, _)`, if any. -/
  writeFault : String → Bytes → FS → Option WriteFault
  /-- Behaviour of the external command `name args...` on a filesystem. -/
  run : String → List String → FS → RunResult
  /-- Failure injected into `os.Open(p)`, if any (besides `p` not existing). -/
  openFault : String → FS → Option String
  /-- Failure injected into `File.Stat()`, if any. -/
  fstatFault : String → FS → Option String
  /-- Size the system reports for a directory. -/
  dirSize : Nat
  /-- Failure injected into `io.Copy`, if any: how many bytes reached the
  response before the error, and the error text. -/
  copyFault : String → FS → Option (Nat × String)
  /-- Whether `os.Remove(p)` fails. -/
  removeFails : String → FS → Bool

/-- An incoming request: its method and the outcome of `io.ReadAll(r.Body)`. -/
structure Request where
  method : String
  body : Except String Bytes

/-- One write to the response body. -/
inductive Payload where
  | text (s : String)
  | raw (b : Bytes)
  deriving DecidableEq

/-- The `http.ResponseWriter`: the header map, the status passed to
`WriteHeader` (`none` while no header has been written) and the writes to the
body, oldest first. -/
structure ResponseWriter where
  header : List (String × String)
  status : Option Nat
  body : List Payload
  deriving DecidableEq

/-- The writer the server hands to a handler. -/
def ResponseWriter.fresh : ResponseWriter := ⟨[], none, []⟩

/-- The status the client receives: `net/http` sends 200 when the handler
returns without having called `WriteHeader`. -/
def ResponseWriter.finalStatus (w : ResponseWriter) : Nat :=
  w.status.getD 200

/-! ## `net/http` -/

def MethodPost : String := "POST"
def StatusOK : Nat := 200
def StatusBadRequest : Nat := 400
def StatusMethodNotAllowed : Nat := 405
def StatusInternalServerError : Nat := 500

/-- Model of `Header.Get`. -/
def headerGet (h : List (String × String)) (k : String) : Option String :=
  match h with
  | [] => none
  | (q, v) :: rest => if q = k then some v else headerGet rest k

/-- Model of `Header.Del`. -/
def headerDel (h : List (String × String)) (k : String) : List (String × String) :=
  match h with
  | [] => []
  | (q, v) :: rest => if q = k then headerDel rest k else (q, v) :: headerDel rest k

/-- Model of `Header.Set`: the key now has exactly this value. -/
def headerSet (h : List (String × String)) (k v : String) : List (String × String) :=
  (k, v) :: headerDel h k

/-- Model of `w.Header().Set(k, v)`. -/
def setHeader (w : ResponseWriter) (k v : String) : ResponseWriter :=
  { w with header := headerSet w.header k v }

/-- Model of `ResponseWriter.WriteHeader`: only the first call counts. -/
def writeHeader (w : ResponseWriter) (code : Nat) : ResponseWriter :=
  match w.status with
  | some _ => w
  | none => { w with status := some code }

/-- Model of `ResponseWriter.Write`: an implicit `WriteHeader(200)` when no
header was written, then the data is appended to the body. -/
def write (w : ResponseWriter) (p : Payload) : ResponseWriter :=
  let w1 := writeHeader w StatusOK
  { w1 with body := w1.body ++ [p] }

/-- Model of `http.Error(w, msg, code)`: drops `Content-Length`, sets the plain
text headers, writes the status and prints the message followed by a newline. -/
def httpError (w : ResponseWriter) (msg : String) (code : Nat) : ResponseWriter :=
  let h1 := headerDel w.header "Content-Length"
  let h2 := headerSet h1 "Content-Type" "text/plain; charset=utf-8"
  let h3 := headerSet h2 "X-Content-Type-Options" "nosniff"
  let w1 := writeHeader { w with header := h3 } code
  write w1 (.text (msg ++ "\n"))

/-! ## `fmt` and `path/filepath` -/

/-- Model of the verb `%d` of `fmt.Sprintf` on an integer: decimal digits, with
a leading minus sign for a negative number. -/
def sprintfD (n : Int) : String := toString n

/-- Split a path at every `/`. -/
def splitSlash : List Char → List (List Char)
  | [] => [[]]
  | c :: cs =>
    if c = '/' then [] :: splitSlash cs
    else
      match splitSlash cs with
      | [] => [[c]]
      | h :: t => (c :: h) :: t

/-- One element of the path in `filepath.Clean`, with the elements kept so far
in `stack`, last one first: empty and `.` elements are dropped, `..` removes the
element before it when there is one to remove, is dropped at the root, and is
kept otherwise. -/
def cleanStep (rooted : Bool) (stack : List (List Char)) (c : List Char) :
    List (List Char) :=
  if c = [] ∨ c = ['.'] then stack
  else if c = ['.', '.'] then
    match stack with
    | top :: rest => if top = ['.', '.'] then c :: stack else rest
    | [] => if rooted then [] else [c]
  else c :: stack

/-- Join path elements with `/`. -/
def joinSlash : List (List Char) → List Char
  | [] => []
  | [c] => c
  | c :: d :: rest => c ++ '/' :: joinSlash (d :: rest)

/-- Model of `filepath.Clean` on a Unix path. -/
def filepathClean (path : String) : String :=
  let rooted := path.data.head? = some '/'
  let kept := ((splitSlash path.data).foldl (cleanStep rooted) []).reverse
  let out := (if rooted then ['/'] else []) ++ joinSlash kept
  if out = [] then "." else String.mk out

/-- Model of `filepath.Join(dir, name)`: empty elements are ignored, the rest is
joined with `/` and cleaned; no non-empty element gives the empty string. -/
def filepathJoin (dir name : String) : String :=
  if dir = "" then (if name = "" then "" else filepathClean name)
  else filepathClean (dir ++ "/" ++ name)

/-! ## `os`, `os/exec` and `io` -/

/-- Record one operation in the trace. -/
def Sys.log (s : Sys) (op : Op) : Sys :=
  { s with trace := s.trace ++ [op] }

/-- Model of `io.ReadAll(r.Body)`. -/
def ioReadAll (r : Request) (s : Sys) : Except String Bytes × Sys :=
  (r.body, s.log .readBody)

/-- Model of `os.Stat(p)` followed by `os.IsNotExist(err)`. -/
def osStatIsNotExist (env : Env) (p : String) (s : Sys) : Bool × Sys :=
  (env.statIsNotExist p s.fs, s.log (.stat p))

/-- Model of `os.Mkdir(p, perm)` with the error ignored: the directory appears
unless the path exists or the call fails. -/
def osMkdir (env : Env) (p : String) (s : Sys) : Sys :=
  let s1 := s.log (.mkdir p)
  if env.mkdirFails p s.fs || s.fs.has p then s1
  else { s1 with fs := s.fs.put p .dir }

/-- Model of `os.WriteFile(p, data, perm)`: on success the path holds a file
with exactly `data`. -/
def osWriteFile (env : Env) (p : String) (data : Bytes) (s : Sys) :
    Option String × Sys :=
  let s1 := s.log (.writeFile p data)
  match env.writeFault p data s.fs with
  | some f =>
    match f.leftover with
    | none => (some f.err, s1)
    | some b => (some f.err, { s1 with fs := s.fs.put p (.file b) })
  | none => (none, { s1 with fs := s.fs.put p (.file data) })

/-- Model of `exec.Command(name, args...)` with `cmd.Stderr` set to a buffer,
followed by `cmd.Run()`: the error and the contents of the buffer. -/
def cmdRun (env : Env) (name : String) (args : List String) (s : Sys) :
    (Option String × String) × Sys :=
  let r := env.run name args s.fs
  ((r.err, r.stderr), { fs := r.fs, trace := s.trace ++ [.exec name args] })

/-- Model of `os.Open(p)`: fails when the path does not exist or a failure is
injected; otherwise the handle is the path. -/
def osOpen (env : Env) (p : String) (s : Sys) : Except String String × Sys :=
  let s1 := s.log (.openFile p)
  match env.openFault p s.fs with
  | some e => (.error e, s1)
  | none =>
    match s.fs.find p with
    | none => (.error ("open " ++ p ++ ": no such file or directory"), s1)
    | some _ => (.ok p, s1)

/-- Size reported for a node. -/
def nodeSize (env : Env) : Node → Nat
  | .file data => data.length
  | .dir => env.dirSize

/-- Model of `File.Stat()` followed by `FileInfo.Size()`. -/
def fileStat (env : Env) (h : String) (s : Sys) : Except String Int × Sys :=
  let s1 := s.log (.fileStat h)
  match env.fstatFault h s.fs with
  | some e => (.error e, s1)
  | none =>
    match s.fs.find h with
    | none => (.error ("stat " ++ h ++ ": no such file or directory"), s1)
    | some n => (.ok (nodeSize env n : Nat), s1)

/-- Model of `io.Copy(w, file)`: the bytes of the file reach the response, all
of them on success and a leading part of them on failure; a directory cannot be
read. -/
def ioCopy (env : Env) (w : ResponseWriter) (h : String) (s : Sys) :
    Option String × ResponseWriter × Sys :=
  let s1 := s.log (.copy h)
  match s.fs.find h with
  | some (.file data) =>
    match env.copyFault h s.fs with
    | none => (none, write w (.raw data), s1)
    | some (n, e) => (some e, write w (.raw (data.take n)), s1)
  | some .dir => (some ("read " ++ h ++ ": is a directory"), w, s1)
  | none => (some ("read " ++ h ++ ": file already closed"), w, s1)

/-- Model of `os.Remove(p)` with the error ignored. -/
def osRemove (env : Env) (p : String) (s : Sys) : Sys :=
  let s1 := s.log (.remove p)
  if env.removeFails p s.fs then s1 else { s1 with fs := s.fs.erase p }

/-! ## The program -/

/-- The process environment, as `KEY=value` entries in order. -/
abbrev Environ := List (String × String)

/-- Model of `os.LookupEnv`: the empty key is never found, and the first entry
of a key is the one that counts. -/
def osLookupEnv (environ : Environ) (key : String) : Option String :=
  if key = "" then none else environ.lookup key

/-- The function `getEnvOr` of `convert.go`. -/
def getEnvOr (environ : Environ) (key defaultValue : String) : String :=
  match osLookupEnv environ key with
  | some value => value
  | none => defaultValue

/-- The port `main` listens on: `getEnvOr("PORT", "8080")`. -/
def mainPort (environ : Environ) : String :=
  getEnvOr environ "PORT" "8080"

/-- The function `cleanup` of `convert.go`: `os.Remove` on each file in turn. -/
def cleanup (env : Env) (files : List String) (s : Sys) : Sys :=
  files.foldl (fun acc file => osRemove env file acc) s

def tempDir : String := "./temp"

/-- The path `tempInputPath` of `handleConvert`. -/
def tempInputPath (timestamp : Int) : String :=
  filepathJoin tempDir ("input_" ++ sprintfD timestamp ++ ".oga")

/-- The path `tempOutputPath` of `handleConvert`. -/
def tempOutputPath (timestamp : Int) : String :=
  filepathJoin tempDir ("output_" ++ sprintfD timestamp ++ ".mp3")

/-- The argument list of the transcoder invocation. -/
def ffmpegArgs (inPath outPath : String) : List String :=
  ["-i", inPath, "-acodec", "libmp3lame", "-q:a", "2", outPath]

/-- The function `handleConvert` of `convert.go`. -/
def handleConvert (env : Env) (w : ResponseWriter) (r : Request) (s : Sys) :
    ResponseWriter × Sys :=
  if r.method ≠ MethodPost then
    (httpError w "Método no permitido" StatusMethodNotAllowed, s)
  else
    match ioReadAll r s with
    | (.error err, s1) =>
      (httpError w ("Error al leer el cuerpo de la solicitud: " ++ err) StatusBadRequest, s1)
    | (.ok body, s1) =>
      if body.length = 0 then
        (httpError w "Cuerpo de la solicitud vacío" StatusBadRequest, s1)
      else
        let s2 :=
          match osStatIsNotExist env tempDir s1 with
          | (true, s) => osMkdir env tempDir s
          | (false, s) => s
        let timestamp := env.now
        let inPath := tempInputPath timestamp
        let outPath := tempOutputPath timestamp
        match osWriteFile env inPath body s2 with
        | (some err, s3) =>
          (httpError w ("Error al guardar archivo temporal: " ++ err)
            StatusInternalServerError, s3)
        | (none, s3) =>
          match cmdRun env "ffmpeg" (ffmpegArgs inPath outPath) s3 with
          | ((some err, stderr), s4) =>
            let w1 := httpError w
              ("Error en la conversión con ffmpeg: " ++ err ++ "\n" ++ stderr)
              StatusInternalServerError
            (w1, osRemove env inPath s4)
          | ((none, _), s4) =>
            match osOpen env outPath s4 with
            | (.error err, s5) =>
              let w1 := httpError w ("Error al abrir el archivo convertido: " ++ err)
                StatusInternalServerError
              (w1, cleanup env [inPath, outPath] s5)
            | (.ok convertedFile, s5) =>
              match fileStat env convertedFile s5 with
              | (.error err, s6) =>
                let w1 := httpError w
                  ("Error al obtener información del archivo: " ++ err)
                  StatusInternalServerError
                (w1, cleanup env [inPath, outPath] s6)
              | (.ok size, s6) =>
                let w1 := setHeader w "Content-Disposition"
                  ("attachment; filename=converted_" ++ sprintfD timestamp ++ ".mp3")
                let w2 := setHeader w1 "Content-Type" "audio/mpeg"
                let w3 := setHeader w2 "Content-Length" (sprintfD size)
                match ioCopy env w3 convertedFile s6 with
                | (_, w4, s7) => (w4, cleanup env [inPath, outPath] s7)

/-! ## Auxiliary definitions: intermediate states, counters, sample environments -/

/-- Value of a string of decimal digits. -/
def decodeNat (l : List Char) : Nat :=
  l.foldl (fun a c => 10 * a + (c.toNat - 48)) 0

/-- State after the body was read and the temp directory step ran. -/
def afterDir (env : Env) (fs : FS) : Sys :=
  match osStatIsNotExist env tempDir (Sys.log ⟨fs, []⟩ .readBody) with
  | (true, s) => osMkdir env tempDir s
  | (false, s) => s

/-- The `os.WriteFile` call of the handler and the state it leaves. -/
def writeStep (env : Env) (body : Bytes) (fs : FS) : Option String × Sys :=
  osWriteFile env (tempInputPath env.now) body (afterDir env fs)

/-- The `cmd.Run()` call of the handler and the state it leaves. -/
def runStep (env : Env) (body : Bytes) (fs : FS) : (Option String × String) × Sys :=
  cmdRun env "ffmpeg" (ffmpegArgs (tempInputPath env.now) (tempOutputPath env.now))
    (writeStep env body fs).2

/-- The `os.Open` call of the handler and the state it leaves. -/
def openStep (env : Env) (body : Bytes) (fs : FS) : Except String String × Sys :=
  osOpen env (tempOutputPath env.now) (runStep env body fs).2

/-- The `convertedFile.Stat()` call of the handler and the state it leaves. -/
def statStep (env : Env) (body : Bytes) (fs : FS) : Except String Int × Sys :=
  fileStat env (tempOutputPath env.now) (openStep env body fs).2

/-- The writer after the three `Header().Set` calls of the success path. -/
def successHeaders (w : ResponseWriter) (timestamp size : Int) : ResponseWriter :=
  setHeader (setHeader (setHeader w "Content-Disposition"
    ("attachment; filename=converted_" ++ sprintfD timestamp ++ ".mp3"))
    "Content-Type" "audio/mpeg") "Content-Length" (sprintfD size)

/-- The `io.Copy` call of the handler, given the size `Stat` reported. -/
def copyStep (env : Env) (body : Bytes) (fs : FS) (size : Int) :
    Option String × ResponseWriter × Sys :=
  ioCopy env (successHeaders .fresh env.now size) (tempOutputPath env.now)
    (statStep env body fs).2

/-- What the server does with one request: the handler runs with a fresh
writer on filesystem `fs`, and the trace starts empty. -/
def serve (env : Env) (r : Request) (fs : FS) : ResponseWriter × Sys :=
  handleConvert env .fresh r ⟨fs, []⟩

/-- Whether an operation is an invocation of an external command. -/
def Op.isExec : Op → Bool
  | .exec _ _ => true
  | _ => false

/-- Number of external command invocations in a trace. -/
def execCount (t : List Op) : Nat := (t.filter Op.isExec).length

/-- An environment without injected failures at Unix time `now`, with the
external command behaving as `run`. -/
def sampleEnv (now : Int) (run : String → List String → FS → RunResult) : Env :=
  { now := now
    statIsNotExist := fun p fs => !fs.has p
    mkdirFails := fun _ _ => false
    writeFault := fun _ _ _ => none
    run := run
    openFault := fun _ _ => none
    fstatFault := fun _ _ => none
    dirSize := 4096
    copyFault := fun _ _ => none
    removeFails := fun _ _ => false }

/-- A transcoder that writes three bytes to its last argument and exits 0. -/
def sampleRunOk (_name : String) (args : List String) (fs : FS) : RunResult :=
  ⟨none, "", fs.put (args.getLastD "") (.file [73, 68, 51])⟩

/-- A transcoder that writes one byte to its last argument, prints a
diagnostic and exits 1. -/
def sampleRunFail (_name : String) (args : List String) (fs : FS) : RunResult :=
  ⟨some "exit status 1", "Invalid data found when processing input",
    fs.put (args.getLastD "") (.file [73])⟩

/-- A transcoder that exits 0 without producing its output. -/
def sampleRunNoOutput (_name : String) (_args : List String) (fs : FS) : RunResult :=
  ⟨none, "", fs⟩

/-- An environment whose `os.WriteFile` runs out of space after one byte. -/
def sampleEnvDiskFull : Env :=
  { sampleEnv 5 sampleRunOk with
    writeFault := fun _ data _ => some ⟨"no space left on device", some (data.take 1)⟩ }

/-! ## Lemmas and the properties of the handler -/

theorem digitChar_val (k : Nat) (hk : k < 10) : (Nat.digitChar k).toNat - 48 = k := by
  interval_cases k <;> rfl

theorem digitChar_plain (k : Nat) (hk : k < 10) :
    Nat.digitChar k ≠ '/' ∧ Nat.digitChar k ≠ '-' := by
  interval_cases k <;> decide

theorem toDigitsCore_fold (fuel : Nat) : ∀ (n : Nat) (ds : List Char), n < fuel →
    (Nat.toDigitsCore 10 fuel n ds).foldl (fun a c => 10 * a + (c.toNat - 48)) 0
      = ds.foldl (fun a c => 10 * a + (c.toNat - 48)) n := by
  induction fuel with
  | zero => intro n ds h; omega
  | succ fuel ih =>
    intro n ds h
    simp only [Nat.toDigitsCore]
    split
    · rename_i h0
      simp only [List.foldl_cons, Nat.mul_zero, Nat.zero_add]
      rw [digitChar_val _ (Nat.mod_lt _ (by decide))]
      congr 1
      omega
    · rename_i h0
      rw [ih (n / 10) _ (by omega)]
      simp only [List.foldl_cons]
      rw [digitChar_val _ (Nat.mod_lt _ (by decide))]
      congr 1
      omega

theorem toDigitsCore_plain (fuel : Nat) : ∀ (n : Nat) (ds : List Char),
    (∀ c ∈ ds, c ≠ '/' ∧ c ≠ '-') →
    ∀ c ∈ Nat.toDigitsCore 10 fuel n ds, c ≠ '/' ∧ c ≠ '-' := by
  induction fuel with
  | zero => intro n ds h; simpa [Nat.toDigitsCore] using h
  | succ fuel ih =>
    intro n ds h
    simp only [Nat.toDigitsCore]
    have hd : ∀ c ∈ Nat.digitChar (n % 10) :: ds, c ≠ '/' ∧ c ≠ '-' := by
      intro c hc
      rcases List.mem_cons.1 hc with rfl | hc
      · exact digitChar_plain _ (Nat.mod_lt _ (by decide))
      · exact h c hc
    split
    · exact hd
    · exact ih _ _ hd

theorem decodeNat_repr (n : Nat) : decodeNat (Nat.repr n).data = n := by
  simp only [decodeNat, Nat.repr, Nat.toDigits, List.asString]
  rw [toDigitsCore_fold (n + 1) n [] (by omega)]
  rfl

theorem repr_plain (n : Nat) : ∀ c ∈ (Nat.repr n).data, c ≠ '/' ∧ c ≠ '-' := by
  simp only [Nat.repr, Nat.toDigits, List.asString]
  exact toDigitsCore_plain _ _ _ (by simp)

theorem sprintfD_ofNat (n : Nat) : sprintfD (Int.ofNat n) = Nat.repr n := rfl

theorem sprintfD_negSucc (n : Nat) : (sprintfD (Int.negSucc n)).data = '-' :: (Nat.repr (n + 1)).data := rfl

theorem sprintfD_injective (a b : Int) (h : sprintfD a = sprintfD b) : a = b := by
  have hd : (sprintfD a).data = (sprintfD b).data := by rw [h]
  cases a with
  | ofNat m =>
    cases b with
    | ofNat n =>
      rw [sprintfD_ofNat, sprintfD_ofNat] at hd
      have := congrArg decodeNat hd
      rw [decodeNat_repr, decodeNat_repr] at this
      rw [this]
    | negSucc n =>
      rw [sprintfD_ofNat, sprintfD_negSucc] at hd
      have := repr_plain m '-' (by rw [hd]; exact List.mem_cons_self _ _)
      exact absurd rfl this.2
  | negSucc m =>
    cases b with
    | ofNat n =>
      rw [sprintfD_ofNat, sprintfD_negSucc] at hd
      have := repr_plain n '-' (by rw [← hd]; exact List.mem_cons_self _ _)
      exact absurd rfl this.2
    | negSucc n =>
      rw [sprintfD_negSucc, sprintfD_negSucc] at hd
      have := congrArg decodeNat (List.cons.inj hd).2
      rw [decodeNat_repr, decodeNat_repr] at this
      have : m = n := by omega
      rw [this]

theorem sprintfD_noSlash (a : Int) : '/' ∉ (sprintfD a).data := by
  intro h
  cases a with
  | ofNat m =>
    rw [sprintfD_ofNat] at h
    exact (repr_plain m _ h).1 rfl
  | negSucc m =>
    rw [sprintfD_negSucc] at h
    rcases List.mem_cons.1 h with h | h
    · exact absurd h (by decide)
    · exact (repr_plain _ _ h).1 rfl

theorem splitSlash_noSlash (l : List Char) (h : '/' ∉ l) : splitSlash l = [l] := by
  induction l with
  | nil => rfl
  | cons c cs ih =>
    have hc : c ≠ '/' := fun e => h (by rw [e]; exact List.mem_cons_self _ _)
    have hcs : '/' ∉ cs := fun e => h (List.mem_cons_of_mem _ e)
    simp only [splitSlash, if_neg hc, ih hcs]

theorem splitSlash_cons_ne (c : Char) (cs : List Char) (hc : c ≠ '/') (h : List Char)
    (t : List (List Char)) (hs : splitSlash cs = h :: t) :
    splitSlash (c :: cs) = (c :: h) :: t := by
  simp only [splitSlash, if_neg hc, hs]

theorem splitSlash_temp (name : List Char) (h : '/' ∉ name) :
    splitSlash ('.' :: '/' :: 't' :: 'e' :: 'm' :: 'p' :: '/' :: name)
      = [['.'], ['t', 'e', 'm', 'p'], name] := by
  have h0 : splitSlash ('/' :: name) = [[], name] := by
    simp only [splitSlash, if_true, splitSlash_noSlash name h]
  have h1 := splitSlash_cons_ne 'p' _ (by decide) _ _ h0
  have h2 := splitSlash_cons_ne 'm' _ (by decide) _ _ h1
  have h3 := splitSlash_cons_ne 'e' _ (by decide) _ _ h2
  have h4 := splitSlash_cons_ne 't' _ (by decide) _ _ h3
  have h5 : splitSlash ('/' :: 't' :: 'e' :: 'm' :: 'p' :: '/' :: name)
      = [[], ['t', 'e', 'm', 'p'], name] := by
    rw [splitSlash, if_pos rfl, h4]
  exact splitSlash_cons_ne '.' _ (by decide) _ _ h5

/-- Joining `./temp` with a plain file name gives `temp/<name>`. -/
theorem filepathJoin_temp (name : String) (h : '/' ∉ name.data)
    (h1 : name.data ≠ []) (h2 : name.data ≠ ['.']) (h3 : name.data ≠ ['.', '.']) :
    filepathJoin tempDir name = "temp/" ++ name := by
  have hd : (tempDir ++ "/" ++ name).data
      = '.' :: '/' :: 't' :: 'e' :: 'm' :: 'p' :: '/' :: name.data := rfl
  have hne : tempDir ≠ "" := by decide
  apply String.ext
  simp only [filepathJoin, if_neg hne, filepathClean, hd, splitSlash_temp _ h]
  simp [cleanStep, h1, h2, h3, joinSlash]

theorem osOpen_ok (env : Env) (p : String) (s : Sys) (f : String)
    (h : (osOpen env p s).1 = .ok f) : f = p := by
  unfold osOpen at h
  simp only at h
  split at h
  · cases h
  · split at h
    · cases h
    · cases h; rfl

theorem handleConvert_post (env : Env) (r : Request) (fs : FS) (body : Bytes)
    (hm : r.method = MethodPost) (hb : r.body = .ok body) (hne : body ≠ []) :
    handleConvert env .fresh r ⟨fs, []⟩ =
      match (writeStep env body fs).1 with
      | some err =>
        (httpError .fresh ("Error al guardar archivo temporal: " ++ err)
          StatusInternalServerError, (writeStep env body fs).2)
      | none =>
        match (runStep env body fs).1 with
        | (some err, stderr) =>
          (httpError .fresh
            ("Error en la conversión con ffmpeg: " ++ err ++ "\n" ++ stderr)
            StatusInternalServerError,
           osRemove env (tempInputPath env.now) (runStep env body fs).2)
        | (none, _) =>
          match (openStep env body fs).1 with
          | .error err =>
            (httpError .fresh ("Error al abrir el archivo convertido: " ++ err)
              StatusInternalServerError,
             cleanup env [tempInputPath env.now, tempOutputPath env.now]
               (openStep env body fs).2)
          | .ok _ =>
            match (statStep env body fs).1 with
            | .error err =>
              (httpError .fresh ("Error al obtener información del archivo: " ++ err)
                StatusInternalServerError,
               cleanup env [tempInputPath env.now, tempOutputPath env.now]
                 (statStep env body fs).2)
            | .ok size =>
              ((copyStep env body fs size).2.1,
               cleanup env [tempInputPath env.now, tempOutputPath env.now]
                 (copyStep env body fs size).2.2) := by
  have hlen : body.length ≠ 0 := by
    intro h; exact hne (List.length_eq_zero.1 h)
  have hd : (match osStatIsNotExist env tempDir (Sys.log ⟨fs, []⟩ .readBody) with
      | (true, s) => osMkdir env tempDir s
      | (false, s) => s) = afterDir env fs := rfl
  simp only [handleConvert, hm, ne_eq, not_true_eq_false, if_false, ioReadAll, hb, hlen, hd]
  rcases hw : writeStep env body fs with ⟨we, s3⟩
  have hw2 : osWriteFile env (tempInputPath env.now) body (afterDir env fs) = (we, s3) := hw
  rw [hw2]
  cases we with
  | some e => rfl
  | none =>
    simp only
    rcases hr : runStep env body fs with ⟨⟨re, se⟩, s4⟩
    have hr2 : cmdRun env "ffmpeg" (ffmpegArgs (tempInputPath env.now) (tempOutputPath env.now)) s3
        = ((re, se), s4) := by
      have := hr; unfold runStep at this; rw [hw] at this; exact this
    rw [hr2]
    cases re with
    | some e => rfl
    | none =>
      simp only
      rcases ho : openStep env body fs with ⟨oe, s5⟩
      have ho2 : osOpen env (tempOutputPath env.now) s4 = (oe, s5) := by
        have := ho; unfold openStep at this; rw [hr] at this; exact this
      rw [ho2]
      cases oe with
      | error e => rfl
      | ok f =>
        have hf : f = tempOutputPath env.now :=
          osOpen_ok env _ s4 f (by rw [ho2])
        subst hf
        simp only
        rcases hs : statStep env body fs with ⟨se2, s6⟩
        have hs2 : fileStat env (tempOutputPath env.now) s5 = (se2, s6) := by
          have := hs; unfold statStep at this; rw [ho] at this; exact this
        rw [hs2]
        cases se2 with
        | error e => rfl
        | ok size =>
          simp only
          have hc : copyStep env body fs size
              = ioCopy env (successHeaders .fresh env.now size) (tempOutputPath env.now) s6 := by
            unfold copyStep; rw [hs]
          rw [hc]
          rfl

theorem find_erase_ne (fs : FS) (p q : String) (h : p ≠ q) :
    (FS.erase fs p).find q = FS.find fs q := by
  induction fs with
  | nil => rfl
  | cons e rest ih =>
    obtain ⟨k, n⟩ := e
    by_cases hk : k = p
    · have hq : k ≠ q := fun e => h (hk ▸ e)
      simp only [FS.erase, FS.find, if_pos hk, if_neg hq, ih]
    · by_cases hq : k = q
      · simp only [FS.erase, FS.find, if_neg hk, if_pos hq]
      · simp only [FS.erase, FS.find, if_neg hk, if_neg hq, ih]

theorem find_erase_self (fs : FS) (p : String) : (FS.erase fs p).find p = none := by
  induction fs with
  | nil => rfl
  | cons e rest ih =>
    obtain ⟨k, n⟩ := e
    by_cases hk : k = p
    · simp only [FS.erase, if_pos hk, ih]
    · simp only [FS.erase, FS.find, if_neg hk, ih]

theorem osRemove_trace (env : Env) (p : String) (s : Sys) :
    (osRemove env p s).trace = s.trace ++ [.remove p] := by
  unfold osRemove
  simp only [Sys.log]
  split <;> rfl

theorem osRemove_find_ne (env : Env) (p q : String) (s : Sys) (h : p ≠ q) :
    (osRemove env p s).fs.find q = s.fs.find q := by
  unfold osRemove
  simp only [Sys.log]
  split
  · rfl
  · exact find_erase_ne s.fs p q h

theorem cleanup_pair (env : Env) (a b : String) (s : Sys) :
    cleanup env [a, b] s = osRemove env b (osRemove env a s) := rfl

theorem cleanup_pair_trace (env : Env) (a b : String) (s : Sys) :
    (cleanup env [a, b] s).trace = s.trace ++ [.remove a, .remove b] := by
  rw [cleanup_pair, osRemove_trace, osRemove_trace, List.append_assoc]
  rfl

theorem afterDir_trace (env : Env) (fs : FS) :
    (afterDir env fs).trace = [.readBody, .stat tempDir] ∨
    (afterDir env fs).trace = [.readBody, .stat tempDir, .mkdir tempDir] := by
  unfold afterDir osStatIsNotExist
  cases env.statIsNotExist tempDir (Sys.log ⟨fs, []⟩ .readBody).fs with
  | false => left; rfl
  | true =>
    right
    simp only [osMkdir, Sys.log]
    split <;> rfl

theorem writeStep_trace (env : Env) (body : Bytes) (fs : FS) :
    (writeStep env body fs).2.trace
      = (afterDir env fs).trace ++ [.writeFile (tempInputPath env.now) body] := by
  unfold writeStep osWriteFile
  simp only [Sys.log]
  split
  · split <;> rfl
  · rfl

theorem runStep_trace (env : Env) (body : Bytes) (fs : FS) :
    (runStep env body fs).2.trace
      = (writeStep env body fs).2.trace ++
        [.exec "ffmpeg" (ffmpegArgs (tempInputPath env.now) (tempOutputPath env.now))] := rfl

theorem openStep_trace (env : Env) (body : Bytes) (fs : FS) :
    (openStep env body fs).2.trace
      = (runStep env body fs).2.trace ++ [.openFile (tempOutputPath env.now)] := by
  unfold openStep osOpen
  simp only [Sys.log]
  split
  · rfl
  · split <;> rfl

theorem openStep_fs (env : Env) (body : Bytes) (fs : FS) :
    (openStep env body fs).2.fs = (runStep env body fs).2.fs := by
  unfold openStep osOpen
  simp only [Sys.log]
  split
  · rfl
  · split <;> rfl

theorem statStep_trace (env : Env) (body : Bytes) (fs : FS) :
    (statStep env body fs).2.trace
      = (openStep env body fs).2.trace ++ [.fileStat (tempOutputPath env.now)] := by
  unfold statStep fileStat
  simp only [Sys.log]
  split
  · rfl
  · split <;> rfl

theorem statStep_fs (env : Env) (body : Bytes) (fs : FS) :
    (statStep env body fs).2.fs = (runStep env body fs).2.fs := by
  rw [← openStep_fs]
  unfold statStep fileStat
  simp only [Sys.log]
  split
  · rfl
  · split <;> rfl

theorem ioCopy_sys (env : Env) (w : ResponseWriter) (h : String) (s : Sys) :
    (ioCopy env w h s).2.2 = s.log (.copy h) := by
  unfold ioCopy
  simp only
  split
  · split <;> rfl
  · rfl
  · rfl

theorem copyStep_sys (env : Env) (body : Bytes) (fs : FS) (size : Int) :
    (copyStep env body fs size).2.2
      = (statStep env body fs).2.log (.copy (tempOutputPath env.now)) :=
  ioCopy_sys _ _ _ _

theorem tempInputPath_eq (ts : Int) :
    tempInputPath ts = "temp/input_" ++ sprintfD ts ++ ".oga" := by
  have hd : ("input_" ++ sprintfD ts ++ ".oga").data
      = 'i' :: 'n' :: 'p' :: 'u' :: 't' :: '_' :: ((sprintfD ts).data ++ ['.', 'o', 'g', 'a']) := rfl
  have hns : '/' ∉ ("input_" ++ sprintfD ts ++ ".oga").data := by
    rw [hd]
    have := sprintfD_noSlash ts
    simp only [List.mem_cons, List.mem_append, List.mem_singleton, not_or]
    refine ⟨by decide, by decide, by decide, by decide, by decide, by decide, this, ?_⟩
    simp
  unfold tempInputPath
  rw [filepathJoin_temp _ hns (by rw [hd]; simp) (by rw [hd]; simp) (by rw [hd]; simp)]
  rfl

theorem tempOutputPath_eq (ts : Int) :
    tempOutputPath ts = "temp/output_" ++ sprintfD ts ++ ".mp3" := by
  have hd : ("output_" ++ sprintfD ts ++ ".mp3").data
      = 'o' :: 'u' :: 't' :: 'p' :: 'u' :: 't' :: '_' ::
        ((sprintfD ts).data ++ ['.', 'm', 'p', '3']) := rfl
  have hns : '/' ∉ ("output_" ++ sprintfD ts ++ ".mp3").data := by
    rw [hd]
    have := sprintfD_noSlash ts
    simp only [List.mem_cons, List.mem_append, List.mem_singleton, not_or]
    refine ⟨by decide, by decide, by decide, by decide, by decide, by decide, by decide, this, ?_⟩
    simp
  unfold tempOutputPath
  rw [filepathJoin_temp _ hns (by rw [hd]; simp) (by rw [hd]; simp) (by rw [hd]; simp)]
  rfl

theorem tempInputPath_data (ts : Int) : (tempInputPath ts).data
    = 't' :: 'e' :: 'm' :: 'p' :: '/' :: 'i' :: 'n' :: 'p' :: 'u' :: 't' :: '_' ::
      ((sprintfD ts).data ++ ['.', 'o', 'g', 'a']) := by
  rw [tempInputPath_eq]; rfl

theorem tempOutputPath_data (ts : Int) : (tempOutputPath ts).data
    = 't' :: 'e' :: 'm' :: 'p' :: '/' :: 'o' :: 'u' :: 't' :: 'p' :: 'u' :: 't' :: '_' ::
      ((sprintfD ts).data ++ ['.', 'm', 'p', '3']) := by
  rw [tempOutputPath_eq]; rfl

theorem tempPaths_ne (t1 t2 : Int) : tempInputPath t1 ≠ tempOutputPath t2 := by
  intro h
  have := congrArg String.data h
  rw [tempInputPath_data, tempOutputPath_data] at this
  simp at this

/-- C9: the temp paths are `temp/input_<ts>.oga` and `temp/output_<ts>.mp3` with
`ts` in decimal; the two differ for every `ts`, and each naming is injective in
the timestamp, so two requests share a path exactly when they share the second. -/
theorem tempPaths_naming (t1 t2 : Int) :
    tempInputPath t1 = "temp/input_" ++ sprintfD t1 ++ ".oga" ∧
    tempOutputPath t1 = "temp/output_" ++ sprintfD t1 ++ ".mp3" ∧
    sprintfD t1 = toString t1 ∧
    tempInputPath t1 ≠ tempOutputPath t1 ∧
    (tempInputPath t1 = tempInputPath t2 ↔ t1 = t2) ∧
    (tempOutputPath t1 = tempOutputPath t2 ↔ t1 = t2) := by
  refine ⟨tempInputPath_eq t1, tempOutputPath_eq t1, rfl, tempPaths_ne t1 t1, ?_, ?_⟩
  · constructor
    · intro h
      have := congrArg String.data h
      rw [tempInputPath_data, tempInputPath_data] at this
      simp only [List.cons.injEq, true_and, List.append_cancel_right_eq] at this
      exact sprintfD_injective _ _ (String.ext this)
    · intro h; rw [h]
  · constructor
    · intro h
      have := congrArg String.data h
      rw [tempOutputPath_data, tempOutputPath_data] at this
      simp only [List.cons.injEq, true_and, List.append_cancel_right_eq] at this
      exact sprintfD_injective _ _ (String.ext this)
    · intro h; rw [h]

theorem badRequest_trace (env : Env) (r : Request) (fs : FS)
    (hm : r.method = "POST") (hb : r.body = .ok [] ∨ ∃ e, r.body = .error e) :
    (serve env r fs).2.trace = [.readBody] := by
  have h2 : r.method = MethodPost := hm
  rcases hb with hb | ⟨e, hb⟩
  · simp only [serve, handleConvert, h2, ne_eq, not_true_eq_false, if_false, ioReadAll, hb,
      List.length_nil, if_true]
    rfl
  · simp only [serve, handleConvert, h2, ne_eq, not_true_eq_false, if_false, ioReadAll, hb]
    rfl

/-- C1: a request whose method is not POST is answered with 405; nothing is
performed: no operation is traced (body not read, nothing created or removed,
transcoder not invoked) and the filesystem is unchanged. -/
theorem handleConvert_method_not_allowed (env : Env) (r : Request) (fs : FS)
    (h : r.method ≠ "POST") :
    (serve env r fs).1.finalStatus = 405 ∧
    (serve env r fs).2.fs = fs ∧
    (serve env r fs).2.trace = [] := by
  have h2 : r.method ≠ MethodPost := h
  have e : serve env r fs
      = (httpError .fresh "Método no permitido" StatusMethodNotAllowed, ⟨fs, []⟩) := by
    simp only [serve, handleConvert, h2, ne_eq, not_false_eq_true, if_true]
  rw [e]
  exact ⟨rfl, rfl, rfl⟩

/-- C2: a POST whose body is empty or cannot be read is answered with 400; the
only operation performed is the read of the body, and the filesystem is
unchanged (no directory made, nothing written or removed, no transcoder). -/
theorem handleConvert_bad_request (env : Env) (r : Request) (fs : FS)
    (hm : r.method = "POST") (hb : r.body = .ok [] ∨ ∃ e, r.body = .error e) :
    (serve env r fs).1.finalStatus = 400 ∧
    (serve env r fs).2.fs = fs ∧
    (serve env r fs).2.trace = [.readBody] := by
  have h2 : r.method = MethodPost := hm
  rcases hb with hb | ⟨e, hb⟩
  · have e : serve env r fs
        = (httpError .fresh "Cuerpo de la solicitud vacío" StatusBadRequest,
           ⟨fs, [.readBody]⟩) := by
      simp only [serve, handleConvert, h2, ne_eq, not_true_eq_false, if_false, ioReadAll, hb,
        List.length_nil, if_true]
      rfl
    rw [e]
    exact ⟨rfl, rfl, rfl⟩
  · have e : serve env r fs
        = (httpError .fresh ("Error al leer el cuerpo de la solicitud: " ++ e)
            StatusBadRequest, ⟨fs, [.readBody]⟩) := by
      simp only [serve, handleConvert, h2, ne_eq, not_true_eq_false, if_false, ioReadAll, hb]
      rfl
    rw [e]
    exact ⟨rfl, rfl, rfl⟩

theorem httpError_fresh_status (msg : String) (code : Nat) :
    (httpError .fresh msg code).finalStatus = code := rfl

theorem httpError_fresh_body (msg : String) (code : Nat) :
    (httpError .fresh msg code).body = [.text (msg ++ "\n")] := rfl

theorem httpError_fresh_header (msg : String) (code : Nat) :
    (httpError .fresh msg code).header
      = [("X-Content-Type-Options", "nosniff"), ("Content-Type", "text/plain; charset=utf-8")] := by
  simp only [httpError, write, writeHeader, ResponseWriter.fresh, headerDel, headerSet]
  decide

theorem serve_writeFail (env : Env) (r : Request) (fs : FS) (body : Bytes) (e : String)
    (hm : r.method = "POST") (hb : r.body = .ok body) (hne : body ≠ [])
    (hw : (writeStep env body fs).1 = some e) :
    serve env r fs
      = (httpError .fresh ("Error al guardar archivo temporal: " ++ e)
          StatusInternalServerError, (writeStep env body fs).2) := by
  have hp := handleConvert_post env r fs body hm hb hne
  rw [hw] at hp
  exact hp

theorem serve_runFail (env : Env) (r : Request) (fs : FS) (body : Bytes) (e se : String)
    (hm : r.method = "POST") (hb : r.body = .ok body) (hne : body ≠ [])
    (hw : (writeStep env body fs).1 = none)
    (hr : (runStep env body fs).1 = (some e, se)) :
    serve env r fs
      = (httpError .fresh ("Error en la conversión con ffmpeg: " ++ e ++ "\n" ++ se)
          StatusInternalServerError,
         osRemove env (tempInputPath env.now) (runStep env body fs).2) := by
  have hp := handleConvert_post env r fs body hm hb hne
  rw [hw] at hp
  simp only at hp
  rw [hr] at hp
  exact hp

theorem serve_openFail (env : Env) (r : Request) (fs : FS) (body : Bytes) (e : String)
    (hm : r.method = "POST") (hb : r.body = .ok body) (hne : body ≠ [])
    (hw : (writeStep env body fs).1 = none)
    (hr : (runStep env body fs).1.1 = none)
    (ho : (openStep env body fs).1 = .error e) :
    serve env r fs
      = (httpError .fresh ("Error al abrir el archivo convertido: " ++ e)
          StatusInternalServerError,
         cleanup env [tempInputPath env.now, tempOutputPath env.now]
           (openStep env body fs).2) := by
  have hp := handleConvert_post env r fs body hm hb hne
  have hr2 : (runStep env body fs).1 = (none, (runStep env body fs).1.2) := Prod.ext hr rfl
  rw [hw] at hp
  simp only at hp
  rw [hr2] at hp
  simp only at hp
  rw [ho] at hp
  exact hp

theorem serve_statFail (env : Env) (r : Request) (fs : FS) (body : Bytes) (f e : String)
    (hm : r.method = "POST") (hb : r.body = .ok body) (hne : body ≠ [])
    (hw : (writeStep env body fs).1 = none)
    (hr : (runStep env body fs).1.1 = none)
    (ho : (openStep env body fs).1 = .ok f)
    (hs : (statStep env body fs).1 = .error e) :
    serve env r fs
      = (httpError .fresh ("Error al obtener información del archivo: " ++ e)
          StatusInternalServerError,
         cleanup env [tempInputPath env.now, tempOutputPath env.now]
           (statStep env body fs).2) := by
  have hp := handleConvert_post env r fs body hm hb hne
  have hr2 : (runStep env body fs).1 = (none, (runStep env body fs).1.2) := Prod.ext hr rfl
  rw [hw] at hp
  simp only at hp
  rw [hr2] at hp
  simp only at hp
  rw [ho] at hp
  simp only at hp
  rw [hs] at hp
  exact hp

theorem serve_stream (env : Env) (r : Request) (fs : FS) (body : Bytes) (f : String)
    (size : Int)
    (hm : r.method = "POST") (hb : r.body = .ok body) (hne : body ≠ [])
    (hw : (writeStep env body fs).1 = none)
    (hr : (runStep env body fs).1.1 = none)
    (ho : (openStep env body fs).1 = .ok f)
    (hs : (statStep env body fs).1 = .ok size) :
    serve env r fs
      = ((copyStep env body fs size).2.1,
         cleanup env [tempInputPath env.now, tempOutputPath env.now]
           (copyStep env body fs size).2.2) := by
  have hp := handleConvert_post env r fs body hm hb hne
  have hr2 : (runStep env body fs).1 = (none, (runStep env body fs).1.2) := Prod.ext hr rfl
  rw [hw] at hp
  simp only at hp
  rw [hr2] at hp
  simp only at hp
  rw [ho] at hp
  simp only at hp
  rw [hs] at hp
  exact hp

theorem fileStat_ok (env : Env) (p : String) (s : Sys) (size : Int)
    (h : (fileStat env p s).1 = .ok size) :
    ∃ node, s.fs.find p = some node ∧ size = (nodeSize env node : Nat) := by
  unfold fileStat at h
  simp only at h
  split at h
  · cases h
  · split at h
    · cases h
    · rename_i n hn
      cases h
      exact ⟨n, hn, rfl⟩

theorem write_header (w : ResponseWriter) (p : Payload) : (write w p).header = w.header := by
  unfold write writeHeader
  split <;> rfl

theorem write_fresh_status (w : ResponseWriter) (p : Payload) (h : w.status = none) :
    (write w p).finalStatus = 200 := by
  unfold write writeHeader
  rw [h]
  rfl

theorem write_fresh_body (w : ResponseWriter) (p : Payload) :
    (write w p).body = w.body ++ [p] := by
  unfold write writeHeader
  split <;> rfl

theorem ioCopy_header (env : Env) (w : ResponseWriter) (h : String) (s : Sys) :
    (ioCopy env w h s).2.1.header = w.header := by
  unfold ioCopy
  simp only
  split
  · split <;> exact write_header _ _
  · rfl
  · rfl

theorem ioCopy_status (env : Env) (w : ResponseWriter) (h : String) (s : Sys)
    (hw : w.status = none) : (ioCopy env w h s).2.1.finalStatus = 200 := by
  unfold ioCopy
  simp only
  split
  · split <;> exact write_fresh_status _ _ hw
  · simp only [ResponseWriter.finalStatus, hw]; rfl
  · simp only [ResponseWriter.finalStatus, hw]; rfl

theorem ioCopy_ok (env : Env) (w : ResponseWriter) (h : String) (s : Sys)
    (hc : (ioCopy env w h s).1 = none) :
    ∃ data, s.fs.find h = some (.file data) ∧
      (ioCopy env w h s).2.1.body = w.body ++ [.raw data] := by
  cases hf : s.fs.find h with
  | none => simp [ioCopy, hf] at hc
  | some node =>
    cases node with
    | dir => simp [ioCopy, hf] at hc
    | file data =>
      cases hcf : env.copyFault h s.fs with
      | some x => simp [ioCopy, hf, hcf] at hc
      | none =>
        refine ⟨data, rfl, ?_⟩
        simp only [ioCopy, hf, hcf]
        exact write_fresh_body _ _

theorem ioCopy_file (env : Env) (w : ResponseWriter) (h : String) (s : Sys) (data : Bytes)
    (hf : s.fs.find h = some (.file data)) (hcf : env.copyFault h s.fs = none) :
    (ioCopy env w h s).1 = none ∧ (ioCopy env w h s).2.1.body = w.body ++ [.raw data] := by
  have e : ioCopy env w h s = (none, write w (.raw data), s.log (.copy h)) := by
    simp only [ioCopy, hf, hcf]
  rw [e]
  exact ⟨rfl, write_fresh_body _ _⟩

theorem successHeaders_get (ts size : Int) :
    headerGet (successHeaders .fresh ts size).header "Content-Type" = some "audio/mpeg" ∧
    headerGet (successHeaders .fresh ts size).header "Content-Disposition"
      = some ("attachment; filename=converted_" ++ sprintfD ts ++ ".mp3") ∧
    headerGet (successHeaders .fresh ts size).header "Content-Length"
      = some (sprintfD size) := by
  have h1 : ("Content-Length" = "Content-Type") = False := by decide
  have h2 : ("Content-Length" = "Content-Disposition") = False := by decide
  have h3 : ("Content-Type" = "Content-Disposition") = False := by decide
  have h4 : ("Content-Disposition" = "Content-Type") = False := by decide
  have h5 : ("Content-Disposition" = "Content-Length") = False := by decide
  have h6 : ("Content-Type" = "Content-Length") = False := by decide
  simp only [successHeaders, setHeader, ResponseWriter.fresh, headerSet, headerDel, headerGet,
    h1, h2, h3, h4, h5, h6, if_false, if_true, and_self]

/-- C3: a POST with a non-empty body for which the write, the transcoder, the
open and the stat succeed is answered with 200, `Content-Type: audio/mpeg`,
`Content-Disposition: attachment; filename=converted_<ts>.mp3` and a
`Content-Length` that is the decimal size of the entry at the output path; when
the copy does not fail, the body is exactly the contents of the output file and
`Content-Length` is its length.  The copy does not fail whenever the output
path holds a regular file and no failure is injected into `io.Copy`: then the
body is the contents of that file, byte for byte. -/
theorem handleConvert_success (env : Env) (r : Request) (fs : FS) (body : Bytes)
    (f : String) (size : Int)
    (hm : r.method = "POST") (hb : r.body = .ok body) (hne : body ≠ [])
    (hw : (writeStep env body fs).1 = none)
    (hr : (runStep env body fs).1.1 = none)
    (ho : (openStep env body fs).1 = .ok f)
    (hs : (statStep env body fs).1 = .ok size) :
    (serve env r fs).1.finalStatus = 200 ∧
    headerGet (serve env r fs).1.header "Content-Type" = some "audio/mpeg" ∧
    headerGet (serve env r fs).1.header "Content-Disposition"
      = some ("attachment; filename=converted_" ++ sprintfD env.now ++ ".mp3") ∧
    headerGet (serve env r fs).1.header "Content-Length" = some (sprintfD size) ∧
    (∃ node, (runStep env body fs).2.fs.find (tempOutputPath env.now) = some node ∧
      size = (nodeSize env node : Nat)) ∧
    ((copyStep env body fs size).1 = none →
      ∃ data, (runStep env body fs).2.fs.find (tempOutputPath env.now) = some (.file data) ∧
        (serve env r fs).1.body = [.raw data] ∧
        headerGet (serve env r fs).1.header "Content-Length"
          = some (toString data.length)) ∧
    (∀ data, (runStep env body fs).2.fs.find (tempOutputPath env.now) = some (.file data) →
      env.copyFault (tempOutputPath env.now) (runStep env body fs).2.fs = none →
        (copyStep env body fs size).1 = none ∧
        (serve env r fs).1.body = [.raw data] ∧
        headerGet (serve env r fs).1.header "Content-Length"
          = some (toString data.length)) := by
  have e := serve_stream env r fs body f size hm hb hne hw hr ho hs
  have hh : (serve env r fs).1.header = (successHeaders .fresh env.now size).header := by
    rw [e]; exact ioCopy_header _ _ _ _
  obtain ⟨hct, hcd, hcl⟩ := successHeaders_get env.now size
  obtain ⟨node, hnode, hsize⟩ := fileStat_ok env _ _ size hs
  rw [openStep_fs] at hnode
  refine ⟨?_, ?_, ?_, ?_, ⟨node, hnode, hsize⟩, ?_, ?_⟩
  · rw [e]; exact ioCopy_status _ _ _ _ rfl
  · rw [hh]; exact hct
  · rw [hh]; exact hcd
  · rw [hh]; exact hcl
  · intro hc
    obtain ⟨data, hdata, hbody⟩ := ioCopy_ok env _ _ _ hc
    rw [statStep_fs] at hdata
    refine ⟨data, hdata, ?_, ?_⟩
    · rw [e]; exact hbody
    · rw [hh, hcl, hsize]
      rw [hnode] at hdata
      cases hdata
      rfl
  · intro data hdata hcf
    have hdata2 : (statStep env body fs).2.fs.find (tempOutputPath env.now)
        = some (.file data) := by rw [statStep_fs]; exact hdata
    have hcf2 : env.copyFault (tempOutputPath env.now) (statStep env body fs).2.fs = none := by
      rw [statStep_fs]; exact hcf
    obtain ⟨hok, hbody⟩ :=
      ioCopy_file env (successHeaders .fresh env.now size) _ _ data hdata2 hcf2
    refine ⟨hok, ?_, ?_⟩
    · rw [e]; exact hbody
    · rw [hh, hcl, hsize]
      rw [hnode] at hdata
      cases hdata
      rfl

theorem afterWrite_trace_cases (env : Env) (body : Bytes) (fs : FS) :
    (writeStep env body fs).2.trace
      = [.readBody, .stat tempDir, .writeFile (tempInputPath env.now) body] ∨
    (writeStep env body fs).2.trace
      = [.readBody, .stat tempDir, .mkdir tempDir, .writeFile (tempInputPath env.now) body] := by
  rw [writeStep_trace]
  rcases afterDir_trace env fs with h | h
  · left; rw [h]; rfl
  · right; rw [h]; rfl

/-- C5: when the write succeeds and the transcoder fails, the answer is 500 with
a body that contains the captured standard error; removal of the input path is
attempted, removal of the output path is not, the output is never opened, and
whatever the transcoder left at the output path is still there. -/
theorem handleConvert_transcoder_failure (env : Env) (r : Request) (fs : FS)
    (body : Bytes) (e se : String)
    (hm : r.method = "POST") (hb : r.body = .ok body) (hne : body ≠ [])
    (hw : (writeStep env body fs).1 = none)
    (hr : (runStep env body fs).1 = (some e, se)) :
    (serve env r fs).1.finalStatus = 500 ∧
    (∃ a b, (serve env r fs).1.body = [.text (a ++ se ++ b)]) ∧
    Op.remove (tempInputPath env.now) ∈ (serve env r fs).2.trace ∧
    Op.remove (tempOutputPath env.now) ∉ (serve env r fs).2.trace ∧
    (∀ p, Op.openFile p ∉ (serve env r fs).2.trace) ∧
    (serve env r fs).2.fs.find (tempOutputPath env.now)
      = (runStep env body fs).2.fs.find (tempOutputPath env.now) := by
  have hx := serve_runFail env r fs body e se hm hb hne hw hr
  have hne2 : tempOutputPath env.now ≠ tempInputPath env.now := (tempPaths_ne _ _).symm
  have ht : (serve env r fs).2.trace = (writeStep env body fs).2.trace ++
      [.exec "ffmpeg" (ffmpegArgs (tempInputPath env.now) (tempOutputPath env.now)),
       .remove (tempInputPath env.now)] := by
    rw [hx]
    simp only [osRemove_trace, runStep_trace, List.append_assoc, List.singleton_append]
  refine ⟨?_, ?_, ?_, ?_, ?_, ?_⟩
  · rw [hx]; rfl
  · rw [hx]
    exact ⟨"Error en la conversión con ffmpeg: " ++ e ++ "\n", "\n", rfl⟩
  · rw [ht]; simp
  · rw [ht]
    rcases afterWrite_trace_cases env body fs with h | h <;> rw [h] <;> simp [hne2]
  · intro p
    rw [ht]
    rcases afterWrite_trace_cases env body fs with h | h <;> rw [h] <;> simp
  · rw [hx]
    exact osRemove_find_ne env _ _ _ (tempPaths_ne _ _)

/-- C6: when the write and the transcoder succeed but the open fails, or the
open succeeds and the stat fails, the answer is 500 with none of the success
headers and no file bytes, no copy is performed, and the last two operations
are the removals of the input path and of the output path. -/
theorem handleConvert_output_unavailable (env : Env) (r : Request) (fs : FS)
    (body : Bytes)
    (hm : r.method = "POST") (hb : r.body = .ok body) (hne : body ≠ [])
    (hw : (writeStep env body fs).1 = none)
    (hr : (runStep env body fs).1.1 = none)
    (hfail : (∃ e, (openStep env body fs).1 = .error e) ∨
      ((∃ f, (openStep env body fs).1 = .ok f) ∧ ∃ e, (statStep env body fs).1 = .error e)) :
    (serve env r fs).1.finalStatus = 500 ∧
    headerGet (serve env r fs).1.header "Content-Disposition" = none ∧
    headerGet (serve env r fs).1.header "Content-Length" = none ∧
    headerGet (serve env r fs).1.header "Content-Type" ≠ some "audio/mpeg" ∧
    (∀ b, Payload.raw b ∉ (serve env r fs).1.body) ∧
    (∀ p, Op.copy p ∉ (serve env r fs).2.trace) ∧
    (∃ ops, (serve env r fs).2.trace
      = ops ++ [.remove (tempInputPath env.now), .remove (tempOutputPath env.now)]) := by
  have key : ∃ msg s, serve env r fs
      = (httpError .fresh msg StatusInternalServerError,
         cleanup env [tempInputPath env.now, tempOutputPath env.now] s) ∧
      (∀ p, Op.copy p ∉ s.trace) := by
    rcases hfail with ⟨e, ho⟩ | ⟨⟨f, ho⟩, e, hs⟩
    · refine ⟨_, _, serve_openFail env r fs body e hm hb hne hw hr ho, ?_⟩
      intro p
      rw [openStep_trace, runStep_trace]
      rcases afterWrite_trace_cases env body fs with h | h <;> rw [h] <;> simp
    · refine ⟨_, _, serve_statFail env r fs body f e hm hb hne hw hr ho hs, ?_⟩
      intro p
      rw [statStep_trace, openStep_trace, runStep_trace]
      rcases afterWrite_trace_cases env body fs with h | h <;> rw [h] <;> simp
  obtain ⟨msg, s, hx, hcopy⟩ := key
  rw [hx]
  refine ⟨rfl, ?_, ?_, ?_, ?_, ?_, ⟨s.trace, cleanup_pair_trace _ _ _ _⟩⟩
  · rw [httpError_fresh_header]; decide
  · rw [httpError_fresh_header]; decide
  · rw [httpError_fresh_header]; decide
  · intro b
    rw [httpError_fresh_body]
    simp
  · intro p
    rw [cleanup_pair_trace]
    simp [hcopy p]

/-- C7: once the output file is opened and stat'ed, whatever the copy does
(`cf1` and `cf2` are two behaviours of the copy), the status is 200, the trace
ends with the copy followed by the removals of the input path and of the output
path, and the final filesystem and trace are the same in both runs. -/
theorem handleConvert_streaming (env : Env) (r : Request) (fs : FS) (body : Bytes)
    (f : String) (size : Int) (cf1 cf2 : String → FS → Option (Nat × String))
    (hm : r.method = "POST") (hb : r.body = .ok body) (hne : body ≠ [])
    (hw : (writeStep env body fs).1 = none)
    (hr : (runStep env body fs).1.1 = none)
    (ho : (openStep env body fs).1 = .ok f)
    (hs : (statStep env body fs).1 = .ok size) :
    (serve { env with copyFault := cf1 } r fs).1.finalStatus = 200 ∧
    (∃ ops, (serve { env with copyFault := cf1 } r fs).2.trace
      = ops ++ [.copy (tempOutputPath env.now), .remove (tempInputPath env.now),
          .remove (tempOutputPath env.now)]) ∧
    (serve { env with copyFault := cf1 } r fs).2.fs
      = (serve { env with copyFault := cf2 } r fs).2.fs ∧
    (serve { env with copyFault := cf1 } r fs).2.trace
      = (serve { env with copyFault := cf2 } r fs).2.trace := by
  have e1 := serve_stream { env with copyFault := cf1 } r fs body f size hm hb hne hw hr ho hs
  have e2 := serve_stream { env with copyFault := cf2 } r fs body f size hm hb hne hw hr ho hs
  have same : (serve { env with copyFault := cf1 } r fs).2
      = (serve { env with copyFault := cf2 } r fs).2 := by
    rw [e1, e2]
    simp only [copyStep_sys]
    rfl
  refine ⟨?_, ?_, by rw [same], by rw [same]⟩
  · rw [e1]; exact ioCopy_status _ _ _ _ rfl
  · rw [e1]
    refine ⟨(statStep env body fs).2.trace, ?_⟩
    simp only [copyStep_sys, cleanup_pair_trace]
    simp only [Sys.log, List.append_assoc, List.singleton_append]
    rfl

theorem execCount_append (a b : List Op) : execCount (a ++ b) = execCount a + execCount b := by
  simp [execCount]

theorem execCount_afterWrite (env : Env) (body : Bytes) (fs : FS) :
    execCount (writeStep env body fs).2.trace = 0 := by
  rcases afterWrite_trace_cases env body fs with h | h <;> rw [h] <;> rfl

theorem execCount_cleanup (env : Env) (a b : String) (s : Sys) :
    execCount (cleanup env [a, b] s).trace = execCount s.trace := by
  rw [cleanup_pair_trace, execCount_append]; rfl

theorem execCount_runStep (env : Env) (body : Bytes) (fs : FS) :
    execCount (runStep env body fs).2.trace = 1 := by
  rw [runStep_trace, execCount_append, execCount_afterWrite]; rfl

theorem execCount_success_paths (env : Env) (r : Request) (fs : FS) (body : Bytes)
    (hm : r.method = "POST") (hb : r.body = .ok body) (hne : body ≠ [])
    (hw : (writeStep env body fs).1 = none) :
    execCount (serve env r fs).2.trace = 1 := by
  rcases hr : (runStep env body fs).1 with ⟨re, se⟩
  cases re with
  | some e =>
    rw [serve_runFail env r fs body e se hm hb hne hw hr]
    rw [osRemove_trace, execCount_append, execCount_runStep]; rfl
  | none =>
    have hr1 : (runStep env body fs).1.1 = none := by rw [hr]
    cases ho : (openStep env body fs).1 with
    | error e =>
      rw [serve_openFail env r fs body e hm hb hne hw hr1 ho]
      rw [execCount_cleanup, openStep_trace, execCount_append, execCount_runStep]; rfl
    | ok f =>
      cases hs : (statStep env body fs).1 with
      | error e =>
        rw [serve_statFail env r fs body f e hm hb hne hw hr1 ho hs]
        rw [execCount_cleanup, statStep_trace, execCount_append, openStep_trace,
          execCount_append, execCount_runStep]; rfl
      | ok size =>
        rw [serve_stream env r fs body f size hm hb hne hw hr1 ho hs]
        rw [execCount_cleanup, copyStep_sys]
        simp only [Sys.log]
        rw [execCount_append, statStep_trace, execCount_append, openStep_trace,
          execCount_append, execCount_runStep]; rfl

/-- C10: when the input write fails the answer is 500 and nothing else happens:
no transcoder, no open, no removal, and the filesystem is the one the failed
write left.  In general the transcoder is invoked at most once, and exactly
once if and only if the method is POST, the body is read and non-empty, and the
input write succeeds. -/
theorem handleConvert_write_failure (env : Env) (r : Request) (fs : FS) :
    (∀ body e, r.method = "POST" → r.body = .ok body → body ≠ [] →
      (writeStep env body fs).1 = some e →
        (serve env r fs).1.finalStatus = 500 ∧
        (∀ n a, Op.exec n a ∉ (serve env r fs).2.trace) ∧
        (∀ p, Op.openFile p ∉ (serve env r fs).2.trace) ∧
        (∀ p, Op.remove p ∉ (serve env r fs).2.trace) ∧
        (serve env r fs).2.fs = (writeStep env body fs).2.fs) ∧
    execCount (serve env r fs).2.trace ≤ 1 ∧
    (execCount (serve env r fs).2.trace = 1 ↔
      r.method = "POST" ∧ ∃ body, r.body = .ok body ∧ body ≠ [] ∧
        (writeStep env body fs).1 = none) := by
  refine ⟨?_, ?_⟩
  · intro body e hm hb hne hw
    rw [serve_writeFail env r fs body e hm hb hne hw]
    refine ⟨rfl, ?_, ?_, ?_, rfl⟩
    · intro n a
      rcases afterWrite_trace_cases env body fs with h | h <;> simp [h]
    · intro p
      rcases afterWrite_trace_cases env body fs with h | h <;> simp [h]
    · intro p
      rcases afterWrite_trace_cases env body fs with h | h <;> simp [h]
  · by_cases hm : r.method = "POST"
    · cases hb : r.body with
      | error e =>
        have h0 := (badRequest_trace env r fs hm (Or.inr ⟨e, hb⟩))
        rw [h0]
        refine ⟨by decide, ?_⟩
        constructor
        · intro h; exact absurd h (by decide)
        · rintro ⟨_, body, hb2, _⟩; cases hb2
      | ok body =>
        by_cases hne : body = []
        · have h0 := (badRequest_trace env r fs hm (Or.inl (hne ▸ hb)))
          rw [h0]
          refine ⟨by decide, ?_⟩
          constructor
          · intro h; exact absurd h (by decide)
          · rintro ⟨_, body2, hb2, hne2, _⟩
            cases hb2
            exact absurd hne hne2
        · cases hw : (writeStep env body fs).1 with
          | some e =>
            rw [serve_writeFail env r fs body e hm hb hne hw, execCount_afterWrite]
            refine ⟨by decide, ?_⟩
            constructor
            · intro h; exact absurd h (by decide)
            · rintro ⟨_, body2, hb2, _, hw2⟩
              cases hb2
              rw [hw] at hw2
              cases hw2
          | none =>
            rw [execCount_success_paths env r fs body hm hb hne hw]
            exact ⟨le_refl _, fun _ => ⟨hm, body, rfl, hne, hw⟩, fun _ => rfl⟩
    · have h0 : (serve env r fs).2.trace = [] := by
        have h2 : r.method ≠ MethodPost := hm
        simp only [serve, handleConvert, h2, ne_eq, not_false_eq_true, if_true]
      rw [h0]
      refine ⟨by decide, ?_⟩
      constructor
      · intro h; exact absurd h (by decide)
      · rintro ⟨hm2, _⟩; exact absurd hm2 hm

/-- C4: the code at a failing input.  With a transcoder that writes part of its
output and exits 1, and removals that never fail, the output file is still
there when the handler returns and no removal was attempted on it; with an
input write that fails after one byte, the partial input file is still there
and no removal was attempted on it. -/
theorem handleConvert_leaves_files_behind :
    (serve (sampleEnv 5 sampleRunFail) ⟨"POST", .ok [1, 2]⟩ []).1.finalStatus = 500 ∧
    (serve (sampleEnv 5 sampleRunFail) ⟨"POST", .ok [1, 2]⟩ []).2.fs.find (tempOutputPath 5)
      = some (.file [73]) ∧
    Op.remove (tempOutputPath 5)
      ∉ (serve (sampleEnv 5 sampleRunFail) ⟨"POST", .ok [1, 2]⟩ []).2.trace ∧
    (serve sampleEnvDiskFull ⟨"POST", .ok [1, 2]⟩ []).1.finalStatus = 500 ∧
    (serve sampleEnvDiskFull ⟨"POST", .ok [1, 2]⟩ []).2.fs.find (tempInputPath 5)
      = some (.file [1]) ∧
    Op.remove (tempInputPath 5)
      ∉ (serve sampleEnvDiskFull ⟨"POST", .ok [1, 2]⟩ []).2.trace := by
  decide

/-- C8 as stated fails: with `PORT=8080` in the environment the variable is
set, and `getEnvOr` still returns a value equal to the default. -/
theorem getEnvOr_default_iff_unset_fails :
    ¬ (getEnvOr [("PORT", "8080")] "PORT" "8080" = "8080" ↔
        osLookupEnv [("PORT", "8080")] "PORT" = none) := by
  decide

/-- C8 amended: `getEnvOr` returns the default when the key is unset and the
value of the variable, unchanged, when it is set (the empty string included);
so the result equals the default exactly when the key is unset or set to the
default itself, and the port is `8080` exactly when `PORT` is unset or set to
`8080`. -/
theorem getEnvOr_spec (environ : Environ) (key defaultValue : String) :
    (osLookupEnv environ key = none → getEnvOr environ key defaultValue = defaultValue) ∧
    (∀ v, osLookupEnv environ key = some v → getEnvOr environ key defaultValue = v) ∧
    (osLookupEnv environ key = some "" → getEnvOr environ key defaultValue = "") ∧
    (getEnvOr environ key defaultValue = defaultValue ↔
      osLookupEnv environ key = none ∨ osLookupEnv environ key = some defaultValue) ∧
    (mainPort environ = "8080" ↔
      osLookupEnv environ "PORT" = none ∨ osLookupEnv environ "PORT" = some "8080") := by
  have gen : ∀ (k d : String), (getEnvOr environ k d = d ↔
      osLookupEnv environ k = none ∨ osLookupEnv environ k = some d) := by
    intro k d
    unfold getEnvOr
    cases h : osLookupEnv environ k with
    | none => simp
    | some v => simp
  refine ⟨?_, ?_, ?_, gen key defaultValue, gen "PORT" "8080"⟩
  · intro h; simp only [getEnvOr, h]
  · intro v h; simp only [getEnvOr, h]
  · intro h; simp only [getEnvOr, h]

/-- C8 amended, at concrete environments: a variable set to the empty string
yields the empty string, and an unset one yields the default. -/
theorem getEnvOr_spec_witness :
    getEnvOr [("PORT", "")] "PORT" "8080" = "" ∧
    getEnvOr [("HOME", "/root")] "PORT" "8080" = "8080" :=
  ⟨(getEnvOr_spec [("PORT", "")] "PORT" "8080").2.1 "" (by decide),
   (getEnvOr_spec [("HOME", "/root")] "PORT" "8080").1 (by decide)⟩

/-- C1 at a concrete request: a GET is answered with 405 and leaves no trace. -/
theorem handleConvert_method_not_allowed_witness :
    (serve (sampleEnv 5 sampleRunOk) ⟨"GET", .ok [1, 2]⟩ []).1.finalStatus = 405 ∧
    (serve (sampleEnv 5 sampleRunOk) ⟨"GET", .ok [1, 2]⟩ []).2.fs = [] ∧
    (serve (sampleEnv 5 sampleRunOk) ⟨"GET", .ok [1, 2]⟩ []).2.trace = [] :=
  handleConvert_method_not_allowed (sampleEnv 5 sampleRunOk) ⟨"GET", .ok [1, 2]⟩ []
    (by decide)

/-- C2 at a concrete request: a POST with an empty body is answered with 400. -/
theorem handleConvert_bad_request_witness :
    (serve (sampleEnv 5 sampleRunOk) ⟨"POST", .ok []⟩ []).1.finalStatus = 400 ∧
    (serve (sampleEnv 5 sampleRunOk) ⟨"POST", .ok []⟩ []).2.fs = [] ∧
    (serve (sampleEnv 5 sampleRunOk) ⟨"POST", .ok []⟩ []).2.trace = [.readBody] :=
  handleConvert_bad_request (sampleEnv 5 sampleRunOk) ⟨"POST", .ok []⟩ [] rfl (Or.inl rfl)

/-- C3 at a concrete request: a three-byte output is served with status 200,
the three headers, and a body that is exactly the three bytes of the output
file; the copy reports no error. -/
theorem handleConvert_success_witness :
    (serve (sampleEnv 5 sampleRunOk) ⟨"POST", .ok [1, 2]⟩ []).1.finalStatus = 200 ∧
    headerGet (serve (sampleEnv 5 sampleRunOk) ⟨"POST", .ok [1, 2]⟩ []).1.header
      "Content-Type" = some "audio/mpeg" ∧
    headerGet (serve (sampleEnv 5 sampleRunOk) ⟨"POST", .ok [1, 2]⟩ []).1.header
      "Content-Disposition" = some "attachment; filename=converted_5.mp3" ∧
    headerGet (serve (sampleEnv 5 sampleRunOk) ⟨"POST", .ok [1, 2]⟩ []).1.header
      "Content-Length" = some "3" ∧
    (runStep (sampleEnv 5 sampleRunOk) [1, 2] []).2.fs.find (tempOutputPath 5)
      = some (.file [73, 68, 51]) ∧
    (copyStep (sampleEnv 5 sampleRunOk) [1, 2] [] 3).1 = none ∧
    (serve (sampleEnv 5 sampleRunOk) ⟨"POST", .ok [1, 2]⟩ []).1.body
      = [.raw [73, 68, 51]] :=
  have h := handleConvert_success (sampleEnv 5 sampleRunOk) ⟨"POST", .ok [1, 2]⟩ [] [1, 2]
    (tempOutputPath 5) 3 rfl rfl (by decide) (by decide) (by decide) rfl rfl
  have hb := h.2.2.2.2.2.2 [73, 68, 51] (by decide) rfl
  ⟨h.1, h.2.1, h.2.2.1, h.2.2.2.1, by decide, hb.1, hb.2.1⟩

/-- C5 at a concrete request: the transcoder exits 1 after writing part of its
output. -/
theorem handleConvert_transcoder_failure_witness :
    (serve (sampleEnv 5 sampleRunFail) ⟨"POST", .ok [1, 2]⟩ []).1.finalStatus = 500 ∧
    Op.remove (tempInputPath 5)
      ∈ (serve (sampleEnv 5 sampleRunFail) ⟨"POST", .ok [1, 2]⟩ []).2.trace ∧
    Op.remove (tempOutputPath 5)
      ∉ (serve (sampleEnv 5 sampleRunFail) ⟨"POST", .ok [1, 2]⟩ []).2.trace :=
  have h := handleConvert_transcoder_failure (sampleEnv 5 sampleRunFail)
    ⟨"POST", .ok [1, 2]⟩ [] [1, 2] "exit status 1" "Invalid data found when processing input"
    rfl rfl (by decide) (by decide) (by decide)
  ⟨h.1, h.2.2.1, h.2.2.2.1⟩

/-- C6 at a concrete request: the transcoder exits 0 without producing its
output, so the open fails. -/
theorem handleConvert_output_unavailable_witness :
    (serve (sampleEnv 5 sampleRunNoOutput) ⟨"POST", .ok [1, 2]⟩ []).1.finalStatus = 500 ∧
    headerGet (serve (sampleEnv 5 sampleRunNoOutput) ⟨"POST", .ok [1, 2]⟩ []).1.header
      "Content-Disposition" = none ∧
    headerGet (serve (sampleEnv 5 sampleRunNoOutput) ⟨"POST", .ok [1, 2]⟩ []).1.header
      "Content-Length" = none :=
  have h := handleConvert_output_unavailable (sampleEnv 5 sampleRunNoOutput)
    ⟨"POST", .ok [1, 2]⟩ [] [1, 2] rfl rfl (by decide) (by decide) (by decide)
    (Or.inl ⟨"open temp/output_5.mp3: no such file or directory", rfl⟩)
  ⟨h.1, h.2.1, h.2.2.1⟩

/-- C7 at a concrete request: one run whose copy breaks after one byte, one run
whose copy succeeds. -/
theorem handleConvert_streaming_witness :
    (serve { sampleEnv 5 sampleRunOk with copyFault := fun _ _ => some (1, "broken pipe") }
      ⟨"POST", .ok [1, 2]⟩ []).1.finalStatus = 200 ∧
    (serve { sampleEnv 5 sampleRunOk with copyFault := fun _ _ => some (1, "broken pipe") }
      ⟨"POST", .ok [1, 2]⟩ []).2.fs
      = (serve { sampleEnv 5 sampleRunOk with copyFault := fun _ _ => none }
          ⟨"POST", .ok [1, 2]⟩ []).2.fs :=
  have h := handleConvert_streaming (sampleEnv 5 sampleRunOk) ⟨"POST", .ok [1, 2]⟩ [] [1, 2]
    (tempOutputPath 5) 3 (fun _ _ => some (1, "broken pipe")) (fun _ _ => none)
    rfl rfl (by decide) (by decide) (by decide) rfl rfl
  ⟨h.1, h.2.2.1⟩

/-- C10 at a concrete request: the input write runs out of space. -/
theorem handleConvert_write_failure_witness :
    (serve sampleEnvDiskFull ⟨"POST", .ok [1, 2]⟩ []).1.finalStatus = 500 ∧
    (∀ n a, Op.exec n a ∉ (serve sampleEnvDiskFull ⟨"POST", .ok [1, 2]⟩ []).2.trace) ∧
    (∀ p, Op.openFile p ∉ (serve sampleEnvDiskFull ⟨"POST", .ok [1, 2]⟩ []).2.trace) ∧
    (∀ p, Op.remove p ∉ (serve sampleEnvDiskFull ⟨"POST", .ok [1, 2]⟩ []).2.trace) ∧
    (serve sampleEnvDiskFull ⟨"POST", .ok [1, 2]⟩ []).2.fs
      = (writeStep sampleEnvDiskFull [1, 2] []).2.fs :=
  (handleConvert_write_failure sampleEnvDiskFull ⟨"POST", .ok [1, 2]⟩ []).1 [1, 2]
    "no space left on device" rfl rfl (by decide) (by decide)

theorem osRemove_fs_ok (env : Env) (p : String) (s : Sys)
    (h : env.removeFails p s.fs = false) : (osRemove env p s).fs = s.fs.erase p := by
  unfold osRemove
  simp only [Sys.log, h]
  rfl

theorem cleanup_pair_gone (env : Env) (a b : String) (s : Sys)
    (hrem : ∀ p fs, env.removeFails p fs = false) :
    (cleanup env [a, b] s).fs.find a = none ∧ (cleanup env [a, b] s).fs.find b = none := by
  rw [cleanup_pair, osRemove_fs_ok env b _ (hrem _ _), osRemove_fs_ok env a _ (hrem _ _)]
  refine ⟨?_, find_erase_self _ _⟩
  by_cases hab : b = a
  · rw [hab]; exact find_erase_self _ _
  · rw [find_erase_ne _ _ _ hab]; exact find_erase_self _ _

/-- X1: once the input is written and the transcoder has exited with status 0,
every exit path ends with the removals of the input path and of the output
path; when removals do not fail, neither path exists when the handler returns. -/
theorem handleConvert_cleans_after_transcode (env : Env) (r : Request) (fs : FS)
    (body : Bytes)
    (hm : r.method = "POST") (hb : r.body = .ok body) (hne : body ≠ [])
    (hw : (writeStep env body fs).1 = none)
    (hr : (runStep env body fs).1.1 = none)
    (hrem : ∀ p fs, env.removeFails p fs = false) :
    (serve env r fs).2.fs.find (tempInputPath env.now) = none ∧
    (serve env r fs).2.fs.find (tempOutputPath env.now) = none ∧
    (∃ ops, (serve env r fs).2.trace
      = ops ++ [.remove (tempInputPath env.now), .remove (tempOutputPath env.now)]) := by
  have key : ∃ s, (serve env r fs).2
      = cleanup env [tempInputPath env.now, tempOutputPath env.now] s := by
    cases ho : (openStep env body fs).1 with
    | error e => exact ⟨_, by rw [serve_openFail env r fs body e hm hb hne hw hr ho]⟩
    | ok f =>
      cases hs : (statStep env body fs).1 with
      | error e => exact ⟨_, by rw [serve_statFail env r fs body f e hm hb hne hw hr ho hs]⟩
      | ok size => exact ⟨_, by rw [serve_stream env r fs body f size hm hb hne hw hr ho hs]⟩
  obtain ⟨s, hx⟩ := key
  rw [hx]
  exact ⟨(cleanup_pair_gone env _ _ s hrem).1, (cleanup_pair_gone env _ _ s hrem).2,
    ⟨s.trace, cleanup_pair_trace _ _ _ _⟩⟩

/-- X1 at a concrete request: a successful conversion leaves neither temp file. -/
theorem handleConvert_cleans_after_transcode_witness :
    (serve (sampleEnv 5 sampleRunOk) ⟨"POST", .ok [1, 2]⟩ []).2.fs.find (tempInputPath 5) = none ∧
    (serve (sampleEnv 5 sampleRunOk) ⟨"POST", .ok [1, 2]⟩ []).2.fs.find (tempOutputPath 5)
      = none :=
  have h := handleConvert_cleans_after_transcode (sampleEnv 5 sampleRunOk)
    ⟨"POST", .ok [1, 2]⟩ [] [1, 2] rfl rfl (by decide) (by decide) (by decide)
    (fun _ _ => rfl)
  ⟨h.1, h.2.1⟩

end Convert
